import Mathlib

/-!
Shallow embedding of the perception-and-decision core of the loopgrab
screen bot (src/main.cpp) and verification of its specified properties.

Machine integers (`int`, `uint32_t`, `time_t`) are modelled as `Int`/`Nat`;
C++ integer division (truncation toward zero) is `Int.tdiv`.  The frame
source is a pure pixel function `Int → Int → Pixel` (one call to
`GameFrame::next` corresponds to supplying the frame for that step), the
control sink is an output list of `Action`s, and wall-clock reads
(`time(NULL)`) are a time parameter `t` threaded into each step.
Unbounded `do`/`while` loops are given a fuel parameter and return
`Option` results (`none` = fuel exhausted).
-/

/-- Packed 32-bit BGRA pixel value (struct Pixel): equality is exact
integer equality of the packed word. -/
structure Pixel where
  c : Nat
deriving DecidableEq

/-- The Pixel(b, g, r, a) constructor: c = a<<24 | r<<16 | g<<8 | b,
each channel a uint8. -/
def mkPixel (b g r a : Nat) : Pixel :=
  ⟨((a % 256) * 16777216 + (r % 256) * 65536 + (g % 256) * 256 + (b % 256)) % 4294967296⟩

/-- Axis-aligned rectangle of four ints (struct Rect). -/
structure Rect where
  x0 : Int
  y0 : Int
  x1 : Int
  y1 : Int
deriving DecidableEq

def Rect.width (r : Rect) : Int := r.x1 - r.x0

def Rect.height (r : Rect) : Int := r.y1 - r.y0

def Rect.centerX (r : Rect) : Int := r.x0 + Int.tdiv r.width 2

def Rect.centerY (r : Rect) : Int := r.y0 + Int.tdiv r.height 2

/-- Rect::contains — half-open membership test. -/
def Rect.contains (r : Rect) (x y : Int) : Bool :=
  decide (r.x0 ≤ x) && decide (x < r.x1) && decide (r.y0 ≤ y) && decide (y < r.y1)

/-- Rect::add — bounding-box union (the C++ method mutates `this`;
here it returns the updated value). -/
def Rect.add (r other : Rect) : Rect :=
  ⟨min other.x0 r.x0, min other.y0 r.y0, max other.x1 r.x1, max other.y1 r.y1⟩

/-- Game::fieldColor = Pixel{0xf6, 0xf9, 0xfb, 0x00}. -/
def fieldColor : Pixel := mkPixel 0xf6 0xf9 0xfb 0x00

/-- Game::ballColor = Pixel{0x51, 0x3d, 0x2c, 0x00}. -/
def ballColor : Pixel := mkPixel 0x51 0x3d 0x2c 0x00

/-- Game::limit — clamp a rectangle to the screen, assigning the four
fields in the C++ statement order (x0, y0, x1, y1), each assignment
seeing the values produced by the earlier ones. -/
def limit (W H : Int) (r : Rect) : Rect :=
  ⟨min r.x1 (min W (max 0 r.x0)),
   min r.y1 (min H (max 0 r.y0)),
   max (min r.x1 (min W (max 0 r.x0))) (min W (max 0 r.x1)),
   max (min r.y1 (min H (max 0 r.y0))) (min H (max 0 r.y1))⟩

/-- Game::shrink — move all four sides inward by one pixel, then clamp.
(The C++ bool return value is not consumed anywhere in the core.) -/
def shrink (W H : Int) (r : Rect) : Rect :=
  limit W H ⟨r.x0 + 1, r.y0 + 1, r.x1 - 1, r.y1 - 1⟩

/-- Game::expand — move all four sides outward by one pixel, then clamp.
(The C++ bool return value is not consumed anywhere in the core.) -/
def expand (W H : Int) (r : Rect) : Rect :=
  limit W H ⟨r.x0 - 1, r.y0 - 1, r.x1 + 1, r.y1 + 1⟩

/-- k successive applications of `expand` (used by the safety-margin
loop in Game::addFieldSafetyMargin and to describe probe boxes). -/
def expandTimes (W H : Int) : Nat → Rect → Rect
  | 0, r => r
  | n + 1, r => expandTimes W H n (expand W H r)

/-- Claim C7 counterexample: for the inverted rectangle (5,0,-3,0) on a
10×10 screen, `limit` is not idempotent and its result has x0 < 0, so
the claim fails for rectangles with negative x1. -/
theorem spec_c7_cex :
    limit 10 10 (limit 10 10 ⟨5, 0, -3, 0⟩) ≠ limit 10 10 ⟨5, 0, -3, 0⟩ ∧
    ¬ 0 ≤ (limit 10 10 ⟨5, 0, -3, 0⟩).x0 := by
  decide

/-- Claim C7 (amended): for every rectangle with x1 ≥ 0 and y1 ≥ 0
(out-of-bounds or inverted coordinates otherwise allowed), applying
`limit` twice gives the same result as applying it once, and the result
satisfies 0 ≤ x0 ≤ x1 ≤ width and 0 ≤ y0 ≤ y1 ≤ height. -/
theorem spec_c7 (W H : Int) (r : Rect) (hW : 0 ≤ W) (hH : 0 ≤ H)
    (hx : 0 ≤ r.x1) (hy : 0 ≤ r.y1) :
    limit W H (limit W H r) = limit W H r ∧
    0 ≤ (limit W H r).x0 ∧ (limit W H r).x0 ≤ (limit W H r).x1 ∧ (limit W H r).x1 ≤ W ∧
    0 ≤ (limit W H r).y0 ∧ (limit W H r).y0 ≤ (limit W H r).y1 ∧ (limit W H r).y1 ≤ H := by
  obtain ⟨a, b, c, d⟩ := r
  simp only [limit, Rect.mk.injEq] at *
  omega

/-- Claim C7 witness: the amended theorem applied to the concrete
rectangle (-5,3,12,4) on a 10×10 screen. -/
theorem spec_c7_witness :
    limit 10 10 (limit 10 10 ⟨-5, 3, 12, 4⟩) = limit 10 10 ⟨-5, 3, 12, 4⟩ ∧
    0 ≤ (limit 10 10 ⟨-5, 3, 12, 4⟩).x0 ∧
    (limit 10 10 ⟨-5, 3, 12, 4⟩).x0 ≤ (limit 10 10 ⟨-5, 3, 12, 4⟩).x1 ∧
    (limit 10 10 ⟨-5, 3, 12, 4⟩).x1 ≤ 10 ∧
    0 ≤ (limit 10 10 ⟨-5, 3, 12, 4⟩).y0 ∧
    (limit 10 10 ⟨-5, 3, 12, 4⟩).y0 ≤ (limit 10 10 ⟨-5, 3, 12, 4⟩).y1 ∧
    (limit 10 10 ⟨-5, 3, 12, 4⟩).y1 ≤ 10 :=
  spec_c7 10 10 ⟨-5, 3, 12, 4⟩ (by decide) (by decide) (by decide) (by decide)

/-- Claim C8: on a rectangle strictly interior to the screen (margin of
at least one pixel on every side and both extents at least 2, so that no
clamp in `limit` engages), expand-then-shrink and shrink-then-expand both
restore the original rectangle; at the raster boundary the pair is not
invertible (witnessed by the full-screen rectangle on a 10×10 screen). -/
theorem spec_c8 (W H : Int) (r : Rect)
    (h1 : 1 ≤ r.x0) (h2 : r.x0 + 2 ≤ r.x1) (h3 : r.x1 + 1 ≤ W)
    (h4 : 1 ≤ r.y0) (h5 : r.y0 + 2 ≤ r.y1) (h6 : r.y1 + 1 ≤ H) :
    shrink W H (expand W H r) = r ∧ expand W H (shrink W H r) = r ∧
    shrink 10 10 (expand 10 10 ⟨0, 0, 10, 10⟩) ≠ ⟨0, 0, 10, 10⟩ := by
  obtain ⟨a, b, c, d⟩ := r
  refine ⟨?_, ?_, by decide⟩ <;>
    (simp only [shrink, expand, limit, Rect.mk.injEq] at *; omega)

/-- Claim C8 witness: the theorem applied to the interior rectangle
(3,4,10,12) on a 20×20 screen. -/
theorem spec_c8_witness :
    shrink 20 20 (expand 20 20 ⟨3, 4, 10, 12⟩) = ⟨3, 4, 10, 12⟩ ∧
    expand 20 20 (shrink 20 20 ⟨3, 4, 10, 12⟩) = ⟨3, 4, 10, 12⟩ ∧
    shrink 10 10 (expand 10 10 ⟨0, 0, 10, 10⟩) ≠ ⟨0, 0, 10, 10⟩ :=
  spec_c8 20 20 ⟨3, 4, 10, 12⟩ (by decide) (by decide) (by decide)
    (by decide) (by decide) (by decide)

/-- Claim C9: Rect::add (bounding-box union) is commutative and
associative, and the union of a rectangle with itself is that
rectangle. -/
theorem spec_c9 (r s t : Rect) :
    Rect.add r s = Rect.add s r ∧
    Rect.add (Rect.add r s) t = Rect.add r (Rect.add s t) ∧
    Rect.add r r = r := by
  obtain ⟨a, b, c, d⟩ := r
  obtain ⟨e, f, g, h⟩ := s
  obtain ⟨i, j, k, l⟩ := t
  simp only [Rect.add, Rect.mk.injEq]
  omega

/-- Scan of up to n pixels of one column, starting at row y and moving
down: true iff some scanned pixel equals the colour (body of the
for-loops in Game::leftContainsColor / Game::rightContainsColor). -/
def scanColAux (frame : Int → Int → Pixel) (color : Pixel) (x : Int) : Int → Nat → Bool
  | _, 0 => false
  | y, n + 1 => decide (frame x y = color) || scanColAux frame color x (y + 1) n

/-- Scan of column x over rows [y0, y1). -/
def scanCol (frame : Int → Int → Pixel) (color : Pixel) (x y0 y1 : Int) : Bool :=
  scanColAux frame color x y0 (y1 - y0).toNat

/-- Scan of up to n pixels of one row, starting at column x and moving
right (body of the for-loops in Game::topContainsColor /
Game::bottomContainsColor). -/
def scanRowAux (frame : Int → Int → Pixel) (color : Pixel) (y : Int) : Int → Nat → Bool
  | _, 0 => false
  | x, n + 1 => decide (frame x y = color) || scanRowAux frame color y (x + 1) n

/-- Scan of row y over columns [x0, x1). -/
def scanRow (frame : Int → Int → Pixel) (color : Pixel) (y x0 x1 : Int) : Bool :=
  scanRowAux frame color y x0 (x1 - x0).toNat

/-- Game::leftContainsColor — column r.x0, rows [r.y0, r.y1). -/
def leftContainsColor (frame : Int → Int → Pixel) (r : Rect) (color : Pixel) : Bool :=
  scanCol frame color r.x0 r.y0 r.y1

/-- Game::rightContainsColor — column r.x1, rows [r.y0, r.y1). -/
def rightContainsColor (frame : Int → Int → Pixel) (r : Rect) (color : Pixel) : Bool :=
  scanCol frame color r.x1 r.y0 r.y1

/-- Game::topContainsColor — row r.y0, columns [r.x0, r.x1). -/
def topContainsColor (frame : Int → Int → Pixel) (r : Rect) (color : Pixel) : Bool :=
  scanRow frame color r.y0 r.x0 r.x1

/-- Game::bottomContainsColor — row r.y1, columns [r.x0, r.x1). -/
def bottomContainsColor (frame : Int → Int → Pixel) (r : Rect) (color : Pixel) : Bool :=
  scanRow frame color r.y1 r.x0 r.x1

/-- The -x0 step of the do-while body of Game::findColorBounds:
tentatively move the left side out by one pixel (clamped at 0), keep the
move iff the new left edge contains the colour, else revert. -/
def fcbLeft (frame : Int → Int → Pixel) (color : Pixel) (r : Rect) : Rect :=
  if leftContainsColor frame ⟨max 0 (r.x0 - 1), r.y0, r.x1, r.y1⟩ color
  then ⟨max 0 (r.x0 - 1), r.y0, r.x1, r.y1⟩ else r

/-- The -y0 step of the do-while body of Game::findColorBounds. -/
def fcbTop (frame : Int → Int → Pixel) (color : Pixel) (r : Rect) : Rect :=
  if topContainsColor frame ⟨r.x0, max 0 (r.y0 - 1), r.x1, r.y1⟩ color
  then ⟨r.x0, max 0 (r.y0 - 1), r.x1, r.y1⟩ else r

/-- The +x1 step of the do-while body of Game::findColorBounds
(clamped at width - 1). -/
def fcbRight (W : Int) (frame : Int → Int → Pixel) (color : Pixel) (r : Rect) : Rect :=
  if rightContainsColor frame ⟨r.x0, r.y0, min (W - 1) (r.x1 + 1), r.y1⟩ color
  then ⟨r.x0, r.y0, min (W - 1) (r.x1 + 1), r.y1⟩ else r

/-- The +y1 step of the do-while body of Game::findColorBounds
(clamped at height - 1). -/
def fcbBottom (H : Int) (frame : Int → Int → Pixel) (color : Pixel) (r : Rect) : Rect :=
  if bottomContainsColor frame ⟨r.x0, r.y0, r.x1, min (H - 1) (r.y1 + 1)⟩ color
  then ⟨r.x0, r.y0, r.x1, min (H - 1) (r.y1 + 1)⟩ else r

/-- One full pass of the do-while body of Game::findColorBounds, sides
handled in the C++ order x0, y0, x1, y1, each seeing the earlier sides'
updates. -/
def fcbPass (W H : Int) (frame : Int → Int → Pixel) (color : Pixel) (r : Rect) : Rect :=
  fcbBottom H frame color (fcbRight W frame color (fcbTop frame color (fcbLeft frame color r)))

/-- The do-while loop of Game::findColorBounds iterated to its fixed
point, with fuel (none = fuel exhausted before reaching the fixed
point). -/
def fcbLoop (W H : Int) (frame : Int → Int → Pixel) (color : Pixel) : Nat → Rect → Option Rect
  | 0, _ => none
  | n + 1, r =>
    if fcbPass W H frame color r = r then some r
    else fcbLoop W H frame color n (fcbPass W H frame color r)

/-- Game::findColorBounds: iterate the per-side expand-or-revert pass to
a fixed point; the returned Bool is whether the rectangle changed from
its input. -/
def findColorBounds (fuel : Nat) (W H : Int) (frame : Int → Int → Pixel) (color : Pixel)
    (rect : Rect) : Option (Rect × Bool) :=
  match fcbLoop W H frame color fuel rect with
  | none => none
  | some r0 => some (r0, decide (rect ≠ r0))

/-- A frame holding a solid block of the given colour on columns
[bx0, bx1) and rows [by0, by1), surrounded everywhere else by
non-matching pixels. -/
def BlockFrame (frame : Int → Int → Pixel) (color : Pixel) (bx0 by0 bx1 by1 : Int) : Prop :=
  (∀ x y, bx0 ≤ x → x < bx1 → by0 ≤ y → y < by1 → frame x y = color) ∧
  (∀ x y, x < bx0 ∨ bx1 ≤ x ∨ y < by0 ∨ by1 ≤ y → frame x y ≠ color)

lemma scanColAux_true_iff (frame : Int → Int → Pixel) (color : Pixel) (x : Int) :
    ∀ (n : Nat) (y : Int),
      scanColAux frame color x y n = true ↔ ∃ k : Nat, k < n ∧ frame x (y + k) = color := by
  intro n
  induction n with
  | zero => intro y; simp [scanColAux]
  | succ n ih =>
    intro y
    simp only [scanColAux, Bool.or_eq_true, decide_eq_true_eq, ih]
    constructor
    · rintro (h | ⟨k, hk, h⟩)
      · exact ⟨0, by omega, by simpa using h⟩
      · refine ⟨k + 1, by omega, ?_⟩
        have he : y + ((k : Int) + 1) = y + 1 + (k : Int) := by ring
        rw [Nat.cast_add, Nat.cast_one, he]
        exact h
    · rintro ⟨k, hk, h⟩
      cases k with
      | zero => left; simpa using h
      | succ k =>
        right
        refine ⟨k, by omega, ?_⟩
        have he : y + 1 + (k : Int) = y + ((k : Int) + 1) := by ring
        rw [he]
        simpa using h

lemma scanRowAux_true_iff (frame : Int → Int → Pixel) (color : Pixel) (y : Int) :
    ∀ (n : Nat) (x : Int),
      scanRowAux frame color y x n = true ↔ ∃ k : Nat, k < n ∧ frame (x + k) y = color := by
  intro n
  induction n with
  | zero => intro x; simp [scanRowAux]
  | succ n ih =>
    intro x
    simp only [scanRowAux, Bool.or_eq_true, decide_eq_true_eq, ih]
    constructor
    · rintro (h | ⟨k, hk, h⟩)
      · exact ⟨0, by omega, by simpa using h⟩
      · refine ⟨k + 1, by omega, ?_⟩
        have he : x + ((k : Int) + 1) = x + 1 + (k : Int) := by ring
        rw [Nat.cast_add, Nat.cast_one, he]
        exact h
    · rintro ⟨k, hk, h⟩
      cases k with
      | zero => left; simpa using h
      | succ k =>
        right
        refine ⟨k, by omega, ?_⟩
        have he : x + 1 + (k : Int) = x + ((k : Int) + 1) := by ring
        rw [he]
        simpa using h

lemma scanCol_true_iff (frame : Int → Int → Pixel) (color : Pixel) (x y0 y1 : Int) :
    scanCol frame color x y0 y1 = true ↔ ∃ y : Int, y0 ≤ y ∧ y < y1 ∧ frame x y = color := by
  unfold scanCol
  rw [scanColAux_true_iff]
  constructor
  · rintro ⟨k, hk, h⟩
    exact ⟨y0 + k, by omega, by omega, h⟩
  · rintro ⟨y, hy1, hy2, h⟩
    refine ⟨(y - y0).toNat, by omega, ?_⟩
    have he : y0 + ((y - y0).toNat : Int) = y := by omega
    rw [he]
    exact h

lemma scanRow_true_iff (frame : Int → Int → Pixel) (color : Pixel) (y x0 x1 : Int) :
    scanRow frame color y x0 x1 = true ↔ ∃ x : Int, x0 ≤ x ∧ x < x1 ∧ frame x y = color := by
  unfold scanRow
  rw [scanRowAux_true_iff]
  constructor
  · rintro ⟨k, hk, h⟩
    exact ⟨x0 + k, by omega, by omega, h⟩
  · rintro ⟨x, hx1, hx2, h⟩
    refine ⟨(x - x0).toNat, by omega, ?_⟩
    have he : x0 + ((x - x0).toNat : Int) = x := by omega
    rw [he]
    exact h

lemma scanCol_in_block (frame : Int → Int → Pixel) (color : Pixel) (bx0 by0 bx1 by1 : Int)
    (hB : BlockFrame frame color bx0 by0 bx1 by1) (x y0 y1 sy : Int)
    (hx1 : bx0 ≤ x) (hx2 : x < bx1) (hy1 : y0 ≤ sy) (hy2 : sy < y1)
    (hsy1 : by0 ≤ sy) (hsy2 : sy < by1) :
    scanCol frame color x y0 y1 = true :=
  (scanCol_true_iff frame color x y0 y1).mpr ⟨sy, hy1, hy2, hB.1 x sy hx1 hx2 hsy1 hsy2⟩

lemma scanCol_out_block (frame : Int → Int → Pixel) (color : Pixel) (bx0 by0 bx1 by1 : Int)
    (hB : BlockFrame frame color bx0 by0 bx1 by1) (x y0 y1 : Int)
    (hx : x < bx0 ∨ bx1 ≤ x) :
    scanCol frame color x y0 y1 = false := by
  rw [Bool.eq_false_iff]
  intro hc
  rw [scanCol_true_iff] at hc
  obtain ⟨y, _, _, hcol⟩ := hc
  rcases hx with h | h
  · exact hB.2 x y (Or.inl h) hcol
  · exact hB.2 x y (Or.inr (Or.inl h)) hcol

lemma scanRow_in_block (frame : Int → Int → Pixel) (color : Pixel) (bx0 by0 bx1 by1 : Int)
    (hB : BlockFrame frame color bx0 by0 bx1 by1) (y x0 x1 sx : Int)
    (hy1 : by0 ≤ y) (hy2 : y < by1) (hx1 : x0 ≤ sx) (hx2 : sx < x1)
    (hsx1 : bx0 ≤ sx) (hsx2 : sx < bx1) :
    scanRow frame color y x0 x1 = true :=
  (scanRow_true_iff frame color y x0 x1).mpr ⟨sx, hx1, hx2, hB.1 sx y hsx1 hsx2 hy1 hy2⟩

lemma scanRow_out_block (frame : Int → Int → Pixel) (color : Pixel) (bx0 by0 bx1 by1 : Int)
    (hB : BlockFrame frame color bx0 by0 bx1 by1) (y x0 x1 : Int)
    (hy : y < by0 ∨ by1 ≤ y) :
    scanRow frame color y x0 x1 = false := by
  rw [Bool.eq_false_iff]
  intro hc
  rw [scanRow_true_iff] at hc
  obtain ⟨x, _, _, hcol⟩ := hc
  rcases hy with h | h
  · exact hB.2 x y (Or.inr (Or.inr (Or.inl h))) hcol
  · exact hB.2 x y (Or.inr (Or.inr (Or.inr h))) hcol

lemma fcbLeft_block (frame : Int → Int → Pixel) (color : Pixel) (bx0 by0 bx1 by1 sx sy : Int)
    (hB : BlockFrame frame color bx0 by0 bx1 by1)
    (hbx0 : 0 ≤ bx0) (hsx2 : sx < bx1) (hsy1 : by0 ≤ sy) (hsy2 : sy < by1)
    (a b c d : Int) (h1 : bx0 ≤ a) (h2 : a ≤ sx) (h3 : b ≤ sy) (h4 : sy < d) :
    fcbLeft frame color ⟨a, b, c, d⟩ = ⟨max bx0 (a - 1), b, c, d⟩ := by
  unfold fcbLeft leftContainsColor
  dsimp only
  by_cases hc : bx0 < a
  · have hm : max 0 (a - 1) = a - 1 := by omega
    rw [hm]
    have hs : scanCol frame color (a - 1) b d = true :=
      scanCol_in_block frame color bx0 by0 bx1 by1 hB (a - 1) b d sy
        (by omega) (by omega) h3 h4 hsy1 hsy2
    simp [hs, Rect.mk.injEq] <;> omega
  · have ha : a = bx0 := by omega
    by_cases hz : bx0 = 0
    · have hm : max 0 (a - 1) = bx0 := by omega
      rw [hm]
      have hs : scanCol frame color bx0 b d = true :=
        scanCol_in_block frame color bx0 by0 bx1 by1 hB bx0 b d sy
          (by omega) (by omega) h3 h4 hsy1 hsy2
      simp [hs, Rect.mk.injEq] <;> omega
    · have hm : max 0 (a - 1) = bx0 - 1 := by omega
      rw [hm]
      have hs : scanCol frame color (bx0 - 1) b d = false :=
        scanCol_out_block frame color bx0 by0 bx1 by1 hB (bx0 - 1) b d (Or.inl (by omega))
      simp [hs, Rect.mk.injEq] <;> omega

lemma fcbTop_block (frame : Int → Int → Pixel) (color : Pixel) (bx0 by0 bx1 by1 sx sy : Int)
    (hB : BlockFrame frame color bx0 by0 bx1 by1)
    (hby0 : 0 ≤ by0) (hsx1 : bx0 ≤ sx) (hsx2 : sx < bx1) (hsy2 : sy < by1)
    (a b c d : Int) (h1 : by0 ≤ b) (h2 : b ≤ sy) (h3 : a ≤ sx) (h4 : sx < c) :
    fcbTop frame color ⟨a, b, c, d⟩ = ⟨a, max by0 (b - 1), c, d⟩ := by
  unfold fcbTop topContainsColor
  dsimp only
  by_cases hc : by0 < b
  · have hm : max 0 (b - 1) = b - 1 := by omega
    rw [hm]
    have hs : scanRow frame color (b - 1) a c = true :=
      scanRow_in_block frame color bx0 by0 bx1 by1 hB (b - 1) a c sx
        (by omega) (by omega) h3 h4 hsx1 hsx2
    simp [hs, Rect.mk.injEq] <;> omega
  · have hb : b = by0 := by omega
    by_cases hz : by0 = 0
    · have hm : max 0 (b - 1) = by0 := by omega
      rw [hm]
      have hs : scanRow frame color by0 a c = true :=
        scanRow_in_block frame color bx0 by0 bx1 by1 hB by0 a c sx
          (by omega) (by omega) h3 h4 hsx1 hsx2
      simp [hs, Rect.mk.injEq] <;> omega
    · have hm : max 0 (b - 1) = by0 - 1 := by omega
      rw [hm]
      have hs : scanRow frame color (by0 - 1) a c = false :=
        scanRow_out_block frame color bx0 by0 bx1 by1 hB (by0 - 1) a c (Or.inl (by omega))
      simp [hs, Rect.mk.injEq] <;> omega

lemma fcbRight_block (W : Int) (frame : Int → Int → Pixel) (color : Pixel)
    (bx0 by0 bx1 by1 sx sy : Int)
    (hB : BlockFrame frame color bx0 by0 bx1 by1)
    (hbx1 : bx1 ≤ W - 1) (hsx1 : bx0 ≤ sx) (hsx2 : sx < bx1) (hsy1 : by0 ≤ sy) (hsy2 : sy < by1)
    (a b c d : Int) (h1 : sx + 1 ≤ c) (h2 : c ≤ max (bx1 - 1) (sx + 1))
    (h3 : b ≤ sy) (h4 : sy < d) :
    fcbRight W frame color ⟨a, b, c, d⟩ = ⟨a, b, min (max (bx1 - 1) (sx + 1)) (c + 1), d⟩ := by
  unfold fcbRight rightContainsColor
  dsimp only
  by_cases hc : c + 1 ≤ bx1 - 1
  · have hm : min (W - 1) (c + 1) = c + 1 := by omega
    rw [hm]
    have hs : scanCol frame color (c + 1) b d = true :=
      scanCol_in_block frame color bx0 by0 bx1 by1 hB (c + 1) b d sy
        (by omega) (by omega) h3 h4 hsy1 hsy2
    simp [hs, Rect.mk.injEq] <;> omega
  · have hs : scanCol frame color (min (W - 1) (c + 1)) b d = false :=
      scanCol_out_block frame color bx0 by0 bx1 by1 hB (min (W - 1) (c + 1)) b d
        (Or.inr (by omega))
    simp [hs, Rect.mk.injEq] <;> omega

lemma fcbBottom_block (H : Int) (frame : Int → Int → Pixel) (color : Pixel)
    (bx0 by0 bx1 by1 sx sy : Int)
    (hB : BlockFrame frame color bx0 by0 bx1 by1)
    (hby1 : by1 ≤ H - 1) (hsx1 : bx0 ≤ sx) (hsx2 : sx < bx1) (hsy1 : by0 ≤ sy) (hsy2 : sy < by1)
    (a b c d : Int) (h1 : sy + 1 ≤ d) (h2 : d ≤ max (by1 - 1) (sy + 1))
    (h3 : a ≤ sx) (h4 : sx < c) :
    fcbBottom H frame color ⟨a, b, c, d⟩ = ⟨a, b, c, min (max (by1 - 1) (sy + 1)) (d + 1)⟩ := by
  unfold fcbBottom bottomContainsColor
  dsimp only
  by_cases hc : d + 1 ≤ by1 - 1
  · have hm : min (H - 1) (d + 1) = d + 1 := by omega
    rw [hm]
    have hs : scanRow frame color (d + 1) a c = true :=
      scanRow_in_block frame color bx0 by0 bx1 by1 hB (d + 1) a c sx
        (by omega) (by omega) h3 h4 hsx1 hsx2
    simp [hs, Rect.mk.injEq] <;> omega
  · have hs : scanRow frame color (min (H - 1) (d + 1)) a c = false :=
      scanRow_out_block frame color bx0 by0 bx1 by1 hB (min (H - 1) (d + 1)) a c
        (Or.inr (by omega))
    simp [hs, Rect.mk.injEq] <;> omega

lemma fcbPass_block (W H : Int) (frame : Int → Int → Pixel) (color : Pixel)
    (bx0 by0 bx1 by1 sx sy : Int)
    (hB : BlockFrame frame color bx0 by0 bx1 by1)
    (hbx0 : 0 ≤ bx0) (hby0 : 0 ≤ by0) (hbx1 : bx1 ≤ W - 1) (hby1 : by1 ≤ H - 1)
    (hsx1 : bx0 ≤ sx) (hsx2 : sx < bx1) (hsy1 : by0 ≤ sy) (hsy2 : sy < by1)
    (a b c d : Int)
    (ha1 : bx0 ≤ a) (ha2 : a ≤ sx) (hc1 : sx + 1 ≤ c) (hc2 : c ≤ max (bx1 - 1) (sx + 1))
    (hb1 : by0 ≤ b) (hb2 : b ≤ sy) (hd1 : sy + 1 ≤ d) (hd2 : d ≤ max (by1 - 1) (sy + 1)) :
    fcbPass W H frame color ⟨a, b, c, d⟩ =
      ⟨max bx0 (a - 1), max by0 (b - 1),
       min (max (bx1 - 1) (sx + 1)) (c + 1), min (max (by1 - 1) (sy + 1)) (d + 1)⟩ := by
  unfold fcbPass
  rw [fcbLeft_block frame color bx0 by0 bx1 by1 sx sy hB hbx0 hsx2 hsy1 hsy2
    a b c d ha1 ha2 hb2 (by omega)]
  rw [fcbTop_block frame color bx0 by0 bx1 by1 sx sy hB hby0 hsx1 hsx2 hsy2
    (max bx0 (a - 1)) b c d hb1 hb2 (by omega) (by omega)]
  rw [fcbRight_block W frame color bx0 by0 bx1 by1 sx sy hB hbx1 hsx1 hsx2 hsy1 hsy2
    (max bx0 (a - 1)) (max by0 (b - 1)) c d hc1 hc2 (by omega) (by omega)]
  rw [fcbBottom_block H frame color bx0 by0 bx1 by1 sx sy hB hby1 hsx1 hsx2 hsy1 hsy2
    (max bx0 (a - 1)) (max by0 (b - 1)) (min (max (bx1 - 1) (sx + 1)) (c + 1)) d hd1 hd2
    (by omega) (by omega)]

lemma fcbLoop_block (W H : Int) (frame : Int → Int → Pixel) (color : Pixel)
    (bx0 by0 bx1 by1 sx sy : Int)
    (hB : BlockFrame frame color bx0 by0 bx1 by1)
    (hbx0 : 0 ≤ bx0) (hby0 : 0 ≤ by0) (hbx1 : bx1 ≤ W - 1) (hby1 : by1 ≤ H - 1)
    (hsx1 : bx0 ≤ sx) (hsx2 : sx < bx1) (hsy1 : by0 ≤ sy) (hsy2 : sy < by1) :
    ∀ (n : Nat) (a b c d : Int),
      bx0 ≤ a → a ≤ sx → sx + 1 ≤ c → c ≤ max (bx1 - 1) (sx + 1) →
      by0 ≤ b → b ≤ sy → sy + 1 ≤ d → d ≤ max (by1 - 1) (sy + 1) →
      (a - bx0).toNat + (b - by0).toNat + (max (bx1 - 1) (sx + 1) - c).toNat +
        (max (by1 - 1) (sy + 1) - d).toNat < n →
      fcbLoop W H frame color n ⟨a, b, c, d⟩ =
        some ⟨bx0, by0, max (bx1 - 1) (sx + 1), max (by1 - 1) (sy + 1)⟩ := by
  intro n
  induction n with
  | zero =>
    intro a b c d _ _ _ _ _ _ _ _ hdist
    omega
  | succ n ih =>
    intro a b c d ha1 ha2 hc1 hc2 hb1 hb2 hd1 hd2 hdist
    have hp := fcbPass_block W H frame color bx0 by0 bx1 by1 sx sy hB
      hbx0 hby0 hbx1 hby1 hsx1 hsx2 hsy1 hsy2 a b c d ha1 ha2 hc1 hc2 hb1 hb2 hd1 hd2
    unfold fcbLoop
    rw [hp]
    by_cases he : (⟨max bx0 (a - 1), max by0 (b - 1),
        min (max (bx1 - 1) (sx + 1)) (c + 1), min (max (by1 - 1) (sy + 1)) (d + 1)⟩ : Rect) =
        ⟨a, b, c, d⟩
    · rw [if_pos he]
      simp only [Rect.mk.injEq] at he
      simp only [Option.some.injEq, Rect.mk.injEq]
      omega
    · rw [if_neg he]
      have he2 : ¬ (max bx0 (a - 1) = a ∧ max by0 (b - 1) = b ∧
          min (max (bx1 - 1) (sx + 1)) (c + 1) = c ∧
          min (max (by1 - 1) (sy + 1)) (d + 1) = d) := by
        simpa [Rect.mk.injEq] using he
      exact ih (max bx0 (a - 1)) (max by0 (b - 1))
        (min (max (bx1 - 1) (sx + 1)) (c + 1)) (min (max (by1 - 1) (sy + 1)) (d + 1))
        (by omega) (by omega) (by omega) (by omega)
        (by omega) (by omega) (by omega) (by omega) (by omega)

/-- Claim C3 counterexample: a 10×10 frame with a solid 3×3 ball-colour
block spanning columns and rows [2, 5), seeded with the 1×1 box at
(3,3): the finder converges to (2,2,4,4) — the last matching column and
row, not the block's exclusive-max bounds (2,2,5,5) — so it does not
converge to exactly the block's bounds. -/
def frameBlockSmall : Int → Int → Pixel := fun x y =>
  if 2 ≤ x ∧ x < 5 ∧ 2 ≤ y ∧ y < 5 then ballColor else fieldColor

theorem spec_c3_cex :
    findColorBounds 20 10 10 frameBlockSmall ballColor ⟨3, 3, 4, 4⟩ = some (⟨2, 2, 4, 4⟩, true) ∧
    (⟨2, 2, 4, 4⟩ : Rect) ≠ ⟨2, 2, 5, 5⟩ := by
  decide

/-- Claim C3 (amended): for every frame holding a solid block of the
target colour on [bx0,bx1)×[by0,by1), strictly inside the clamping range
and surrounded by non-target pixels, the finder started from a 1×1 seed
(sx,sy,sx+1,sy+1) inside the block converges to the rectangle
(bx0, by0, max (bx1-1) (sx+1), max (by1-1) (sy+1)) — its x1/y1 are the
last matching column/row (one less than the block's exclusive bounds)
except when the seed sits in that last column/row — reporting "changed"
iff that rectangle differs from the seed; running the finder again from
the converged rectangle reports "unchanged". -/
theorem spec_c3 (fuel : Nat) (W H bx0 by0 bx1 by1 sx sy : Int)
    (frame : Int → Int → Pixel) (color : Pixel)
    (hB : BlockFrame frame color bx0 by0 bx1 by1)
    (hbx0 : 0 ≤ bx0) (hby0 : 0 ≤ by0) (hbx1 : bx1 ≤ W - 1) (hby1 : by1 ≤ H - 1)
    (hsx1 : bx0 ≤ sx) (hsx2 : sx < bx1) (hsy1 : by0 ≤ sy) (hsy2 : sy < by1)
    (hfuel : ((bx1 - bx0) + (by1 - by0)).toNat ≤ fuel) :
    findColorBounds fuel W H frame color ⟨sx, sy, sx + 1, sy + 1⟩ =
      some (⟨bx0, by0, max (bx1 - 1) (sx + 1), max (by1 - 1) (sy + 1)⟩,
        decide ((⟨sx, sy, sx + 1, sy + 1⟩ : Rect) ≠
          ⟨bx0, by0, max (bx1 - 1) (sx + 1), max (by1 - 1) (sy + 1)⟩)) ∧
    findColorBounds fuel W H frame color
        ⟨bx0, by0, max (bx1 - 1) (sx + 1), max (by1 - 1) (sy + 1)⟩ =
      some (⟨bx0, by0, max (bx1 - 1) (sx + 1), max (by1 - 1) (sy + 1)⟩, false) := by
  have hseed := fcbLoop_block W H frame color bx0 by0 bx1 by1 sx sy hB
    hbx0 hby0 hbx1 hby1 hsx1 hsx2 hsy1 hsy2 fuel sx sy (sx + 1) (sy + 1)
    hsx1 (by omega) (by omega) (by omega) hsy1 (by omega) (by omega) (by omega) (by omega)
  have hT := fcbLoop_block W H frame color bx0 by0 bx1 by1 sx sy hB
    hbx0 hby0 hbx1 hby1 hsx1 hsx2 hsy1 hsy2 fuel bx0 by0
    (max (bx1 - 1) (sx + 1)) (max (by1 - 1) (sy + 1))
    (by omega) hsx1 (by omega) (by omega) (by omega) hsy1 (by omega) (by omega) (by omega)
  constructor
  · unfold findColorBounds
    rw [hseed]
  · unfold findColorBounds
    rw [hT]
    simp

/-- Claim C3 witness: the amended theorem applied to a 10×10 frame with
a solid 5×5 block on [2,7)×[2,7) and seed (4,4): convergence to
(2,2,6,6) reporting "changed", then "unchanged" from (2,2,6,6). -/
def frameBlockWide : Int → Int → Pixel := fun x y =>
  if 2 ≤ x ∧ x < 7 ∧ 2 ≤ y ∧ y < 7 then ballColor else fieldColor

theorem spec_c3_witness :
    findColorBounds 12 10 10 frameBlockWide ballColor ⟨4, 4, 5, 5⟩ = some (⟨2, 2, 6, 6⟩, true) ∧
    findColorBounds 12 10 10 frameBlockWide ballColor ⟨2, 2, 6, 6⟩ = some (⟨2, 2, 6, 6⟩, false) := by
  have hBF : BlockFrame frameBlockWide ballColor 2 2 7 7 := by
    constructor
    · intro x y h1 h2 h3 h4
      simp only [frameBlockWide]
      rw [if_pos ⟨h1, h2, h3, h4⟩]
    · intro x y h
      simp only [frameBlockWide]
      rw [if_neg]
      · decide
      · rintro ⟨c1, c2, c3, c4⟩
        rcases h with h | h | h | h <;> omega
  have h := spec_c3 12 10 10 2 2 7 7 4 4 frameBlockWide ballColor hBF
    (by decide) (by decide) (by decide) (by decide) (by decide) (by decide)
    (by decide) (by decide) (by decide)
  simpa using h

/-- Game::isBallSurrounded — expand the given rectangle three times (the
probe box), then require all four edge-midpoint pixels of the probe box
to differ from the field colour. -/
def isBallSurrounded (W H : Int) (frame : Int → Int → Pixel) (ball : Rect) : Bool :=
  let f := expand W H (expand W H (expand W H ball))
  decide (frame f.centerX f.y0 ≠ fieldColor) &&
  decide (frame f.centerX f.y1 ≠ fieldColor) &&
  decide (frame f.x0 f.centerY ≠ fieldColor) &&
  decide (frame f.x1 f.centerY ≠ fieldColor)

/-- The spec's description of the ACTIVE-state surroundedness judgement,
parameterised by the number of one-pixel expansions applied to the ball
rectangle to build the probe box: all four edge-midpoint pixels of the
probe box must differ from the field colour.  The claim asserts the
probe box uses 3 expansions; the code composes `expand` in Game::step
with the three expansions inside Game::isBallSurrounded. -/
def surroundedProbe (W H : Int) (frame : Int → Int → Pixel) (k : Nat) (ball : Rect) : Bool :=
  let f := expandTimes W H k ball
  decide (frame f.centerX f.y0 ≠ fieldColor) &&
  decide (frame f.centerX f.y1 ≠ fieldColor) &&
  decide (frame f.x0 f.centerY ≠ fieldColor) &&
  decide (frame f.x1 f.centerY ≠ fieldColor)

/-- Claim C1 counterexample: on a 100×100 screen with ball rectangle
(50,50,55,55), a frame that is field-coloured exactly at (52,47) — the
top midpoint of the 3-expansion probe box — and ball-coloured elsewhere:
the judgement Game::step actually computes (isBallSurrounded applied to
the once-expanded ball box, i.e. 4 expansions total) is true, while the
claim's 3-expansion probe box judges false. -/
def frameC1 : Int → Int → Pixel := fun x y =>
  if x = 52 ∧ y = 47 then fieldColor else ballColor

theorem spec_c1_cex :
    isBallSurrounded 100 100 frameC1 (expand 100 100 ⟨50, 50, 55, 55⟩) ≠
      surroundedProbe 100 100 frameC1 3 ⟨50, 50, 55, 55⟩ := by
  decide

/-- Claim C1 (amended): in the ACTIVE state with the ball found, the
surroundedness judgement Game::step computes — isBallSurrounded applied
to the once-expanded ball rectangle — equals the edge-midpoint test on
the probe box built from exactly 4 one-pixel clamped expansions of the
ball rectangle (one in step plus three inside isBallSurrounded), judging
the ball surrounded iff all four edge-midpoint pixels of that probe box
differ from the field colour. -/
theorem spec_c1 (W H : Int) (frame : Int → Int → Pixel) (b : Rect) :
    isBallSurrounded W H frame (expand W H b) = surroundedProbe W H frame 4 b := by
  rfl

/-- Game::checkForBall — returns (found, updated candidate rectangle):
the pixel at (x,y) must match the ball colour, the region finder is run
from the 1×1 seed at (x,y), and a changed result must be a >4×>4 square
with non-ball corners and ball-coloured one-pixel-inset edge midpoints.
The rectangle output models the C++ in-out `ball` reference parameter,
which the call mutates even on failed candidates. -/
def checkForBall (fuel : Nat) (W H : Int) (frame : Int → Int → Pixel) (x y : Int)
    (b : Rect) : Option (Bool × Rect) :=
  if frame x y ≠ ballColor then some (false, b)
  else
    match findColorBounds fuel W H frame ballColor ⟨x, y, x + 1, y + 1⟩ with
    | none => none
    | some (r0, changed) =>
      if changed then
        if 4 < r0.width ∧ 4 < r0.height ∧ r0.width = r0.height ∧
            frame r0.x0 r0.y0 ≠ ballColor ∧ frame r0.x1 r0.y0 ≠ ballColor ∧
            frame r0.x0 r0.y1 ≠ ballColor ∧ frame r0.x1 r0.y1 ≠ ballColor ∧
            frame (r0.x0 + Int.tdiv r0.width 2) (r0.y0 + 1) = ballColor ∧
            frame (r0.x0 + Int.tdiv r0.width 2) (r0.y1 - 1) = ballColor ∧
            frame (r0.x0 + 1) (r0.y0 + Int.tdiv r0.height 2) = ballColor ∧
            frame (r0.x1 - 1) (r0.y0 + Int.tdiv r0.height 2) = ballColor
        then some (true, r0)
        else some (false, r0)
      else some (false, ⟨x, y, x + 1, y + 1⟩)

lemma findColorBounds_some_iff (fuel : Nat) (W H : Int) (frame : Int → Int → Pixel)
    (color : Pixel) (rect r0 : Rect) (changed : Bool) :
    findColorBounds fuel W H frame color rect = some (r0, changed) ↔
      fcbLoop W H frame color fuel rect = some r0 ∧ changed = decide (rect ≠ r0) := by
  unfold findColorBounds
  cases hl : fcbLoop W H frame color fuel rect with
  | none => simp
  | some r1 =>
    simp only [Option.some.injEq, Prod.mk.injEq]
    constructor
    · rintro ⟨h1, h2⟩
      exact ⟨by rw [h1], by rw [← h1, h2]⟩
    · rintro ⟨h1, h2⟩
      exact ⟨h1, by rw [h1, h2]⟩

/-- Claim C4: checkForBall succeeds with candidate r iff the pixel at
(x,y) is the ball colour, the region finder grows the 1×1 seed at (x,y)
to r (r differing from the seed, the finder's "changed" condition), and
r is strictly wider and taller than 4, exactly square, with non-ball
pixels at its four corners and ball pixels at its four one-pixel-inset
edge midpoints. -/
theorem spec_c4 (fuel : Nat) (W H : Int) (frame : Int → Int → Pixel) (x y : Int)
    (b r : Rect) :
    checkForBall fuel W H frame x y b = some (true, r) ↔
      (frame x y = ballColor ∧
       fcbLoop W H frame ballColor fuel ⟨x, y, x + 1, y + 1⟩ = some r ∧
       r ≠ ⟨x, y, x + 1, y + 1⟩ ∧
       4 < r.width ∧ 4 < r.height ∧ r.width = r.height ∧
       frame r.x0 r.y0 ≠ ballColor ∧ frame r.x1 r.y0 ≠ ballColor ∧
       frame r.x0 r.y1 ≠ ballColor ∧ frame r.x1 r.y1 ≠ ballColor ∧
       frame (r.x0 + Int.tdiv r.width 2) (r.y0 + 1) = ballColor ∧
       frame (r.x0 + Int.tdiv r.width 2) (r.y1 - 1) = ballColor ∧
       frame (r.x0 + 1) (r.y0 + Int.tdiv r.height 2) = ballColor ∧
       frame (r.x1 - 1) (r.y0 + Int.tdiv r.height 2) = ballColor) := by
  unfold checkForBall
  by_cases hpx : frame x y = ballColor
  · rw [if_neg (fun hc => hc hpx)]
    cases hfc : findColorBounds fuel W H frame ballColor ⟨x, y, x + 1, y + 1⟩ with
    | none =>
      have hln : fcbLoop W H frame ballColor fuel ⟨x, y, x + 1, y + 1⟩ = none := by
        unfold findColorBounds at hfc
        cases hl : fcbLoop W H frame ballColor fuel ⟨x, y, x + 1, y + 1⟩ with
        | none => rfl
        | some r1 => rw [hl] at hfc; simp at hfc
      constructor
      · intro h
        simp at h
      · rintro ⟨-, hr, -⟩
        rw [hln] at hr
        simp at hr
    | some p =>
      obtain ⟨r0, changed⟩ := p
      obtain ⟨hl, hchg⟩ :=
        (findColorBounds_some_iff fuel W H frame ballColor ⟨x, y, x + 1, y + 1⟩ r0 changed).mp hfc
      subst hchg
      dsimp only
      simp only [decide_eq_true_eq]
      by_cases hne2 : (⟨x, y, x + 1, y + 1⟩ : Rect) ≠ r0
      · rw [if_pos hne2]
        by_cases hshape : 4 < r0.width ∧ 4 < r0.height ∧ r0.width = r0.height ∧
            frame r0.x0 r0.y0 ≠ ballColor ∧ frame r0.x1 r0.y0 ≠ ballColor ∧
            frame r0.x0 r0.y1 ≠ ballColor ∧ frame r0.x1 r0.y1 ≠ ballColor ∧
            frame (r0.x0 + Int.tdiv r0.width 2) (r0.y0 + 1) = ballColor ∧
            frame (r0.x0 + Int.tdiv r0.width 2) (r0.y1 - 1) = ballColor ∧
            frame (r0.x0 + 1) (r0.y0 + Int.tdiv r0.height 2) = ballColor ∧
            frame (r0.x1 - 1) (r0.y0 + Int.tdiv r0.height 2) = ballColor
        · rw [if_pos hshape]
          constructor
          · intro h
            obtain rfl : r0 = r := by
              have h2 := Option.some.inj h
              simpa using h2
            exact ⟨hpx, hl, fun he => hne2 he.symm, hshape⟩
          · rintro ⟨-, hr, -⟩
            rw [hl] at hr
            obtain rfl : r0 = r := Option.some.inj hr
            rfl
        · rw [if_neg hshape]
          constructor
          · intro h
            simp at h
          · rintro ⟨-, hr, -, h4, h5, h6, h7, h8, h9, h10, h11, h12, h13, h14⟩
            rw [hl] at hr
            obtain rfl : r0 = r := Option.some.inj hr
            exact absurd ⟨h4, h5, h6, h7, h8, h9, h10, h11, h12, h13, h14⟩ hshape
      · rw [if_neg hne2]
        push_neg at hne2
        constructor
        · intro h
          simp at h
        · rintro ⟨-, hr, hne, -⟩
          rw [hl] at hr
          obtain rfl : r0 = r := Option.some.inj hr
          exact absurd hne2.symm hne
  · rw [if_pos hpx]
    constructor
    · intro h
      simp at h
    · rintro ⟨h, -⟩
      exact absurd h hpx

/-- The mutable per-session state of class Game (the const members
width/height are passed separately; the unused `screen` member is
omitted). -/
structure GameState where
  ball : Rect
  field : Rect
  frameCount : Int
  lastFire : Int
  lastBall : Int
  lastBallMove : Int
  deadzoneFrames : Int
  ignoredCount : Int
  hasFired : Bool
deriving DecidableEq

/-- One synthetic-input action sent to the GameControls sink, or the
diagnostic raster dump requested from the GameFrame source. -/
inductive GameAction where
  | fire : GameAction
  | move (x y : Int) : GameAction
  | click (x y : Int) : GameAction
  | focus (x y : Int) : GameAction
  | savePng : GameAction
deriving DecidableEq

/-- The Game constructor: zero rectangles, zero counters, both
timestamps set to the construction-time clock value t0. -/
def initGame (deadzone t0 : Int) : GameState :=
  { ball := ⟨0, 0, 0, 0⟩, field := ⟨0, 0, 0, 0⟩, frameCount := 0, lastFire := 0,
    lastBall := t0, lastBallMove := t0, deadzoneFrames := deadzone,
    ignoredCount := 0, hasFired := false }

/-- Game::haveField — field width and height both exceed 10 units
(unit = max(4, ball width)) and differ by less than a quarter unit. -/
def haveField (s : GameState) : Bool :=
  decide (max 4 s.ball.width * 10 < s.field.width) &&
  decide (max 4 s.ball.width * 10 < s.field.height) &&
  decide (s.field.width < s.field.height + Int.tdiv (max 4 s.ball.width) 4) &&
  decide (s.field.height - Int.tdiv (max 4 s.ball.width) 4 < s.field.width)

/-- Game::fire — dispatch an activate signal iff at least deadzoneFrames
frames elapsed since the last dispatch (lastFire starts at 0 from the
constructor); on dispatch reset the ignored counter and record the
firing frame, otherwise count the attempt as ignored. -/
def fire (s : GameState) : Bool × GameState :=
  if s.deadzoneFrames ≤ s.frameCount - s.lastFire then
    (true, { s with ignoredCount := 0, lastFire := s.frameCount })
  else
    (false, { s with ignoredCount := s.ignoredCount + 1 })

/-- Invoke the fire policy once per listed frame index, recording for
each attempt whether it dispatched and the ignored-counter value
observable at the time of the attempt. -/
def fireSeq : List Int → GameState → List (Bool × Int) × GameState
  | [], s => ([], s)
  | f :: fs, s =>
    let s0 := { s with frameCount := f }
    let r := fire s0
    let rest := fireSeq fs r.2
    ((r.1, s0.ignoredCount) :: rest.1, rest.2)

/-- Inner (x) loop of the grid scan in Game::findBall: step through
columns of one row, skipping points inside the running candidate b,
otherwise running checkForBall (which mutates b also on failure); stop
at the first hit.  The Nat argument counts remaining loop iterations
(the stride is at least 1, so (zx1 - x).toNat iterations always
suffice); it reaches 0 only when x has already passed zx1.
Result: (found rectangle if any, final b). -/
def gridScanXAux (fuel : Nat) (W H : Int) (frame : Int → Int → Pixel) (bw y zx1 : Int) :
    Nat → Int → Rect → Option (Option Rect × Rect)
  | 0, _, b => some (none, b)
  | n + 1, x, b =>
    if x < zx1 then
      if b.contains x y then
        gridScanXAux fuel W H frame bw y zx1 n (x + max 1 (Int.tdiv bw 2)) b
      else
        match checkForBall fuel W H frame x y b with
        | none => none
        | some (true, b2) => some (some b2, b2)
        | some (false, b2) =>
          gridScanXAux fuel W H frame bw y zx1 n (x + max 1 (Int.tdiv bw 2)) b2
    else
      some (none, b)

/-- Inner (x) loop of the grid scan, entered at column x. -/
def gridScanX (fuel : Nat) (W H : Int) (frame : Int → Int → Pixel) (bw y zx1 x : Int)
    (b : Rect) : Option (Option Rect × Rect) :=
  gridScanXAux fuel W H frame bw y zx1 (zx1 - x).toNat x b

/-- Outer (y) loop of the grid scan in Game::findBall, with the same
iteration-count scheme as the inner loop. -/
def gridScanYAux (fuel : Nat) (W H : Int) (frame : Int → Int → Pixel) (bw bh zx0 zx1 zy1 : Int) :
    Nat → Int → Rect → Option (Option Rect × Rect)
  | 0, _, b => some (none, b)
  | n + 1, y, b =>
    if y < zy1 then
      match gridScanX fuel W H frame bw y zx1 zx0 b with
      | none => none
      | some (some rFound, b2) => some (some rFound, b2)
      | some (none, b2) =>
        gridScanYAux fuel W H frame bw bh zx0 zx1 zy1 n (y + max 1 (Int.tdiv bh 2)) b2
    else
      some (none, b)

/-- Outer (y) loop of the grid scan, entered at row y. -/
def gridScanY (fuel : Nat) (W H : Int) (frame : Int → Int → Pixel) (bw bh zx0 zx1 zy1 y : Int)
    (b : Rect) : Option (Option Rect × Rect) :=
  gridScanYAux fuel W H frame bw bh zx0 zx1 zy1 (zy1 - y).toNat y b

/-- Game::findBall — first retry checkForBall at the four edge midpoints
of the last known ball box (each call's arguments evaluated against the
candidate as mutated by the earlier failed calls), then fall back to the
grid scan over the zone with stride half the last ball's extent.
Returns (found, ball, lastBall, lastBallMove) — the member values after
the call, given the wall-clock reading t. -/
def findBall (fuel : Nat) (W H : Int) (frame : Int → Int → Pixel) (zone : Rect) (t : Int)
    (ball : Rect) (lastBall lastBallMove : Int) : Option (Bool × Rect × Int × Int) :=
  match checkForBall fuel W H frame ball.centerX ball.y0 ball with
  | none => none
  | some (true, b1) => some (true, b1, t, if ball = b1 then lastBallMove else t)
  | some (false, b1) =>
    match checkForBall fuel W H frame b1.x0 b1.centerY b1 with
    | none => none
    | some (true, b2) => some (true, b2, t, if ball = b2 then lastBallMove else t)
    | some (false, b2) =>
      match checkForBall fuel W H frame b2.centerX b2.y1 b2 with
      | none => none
      | some (true, b3) => some (true, b3, t, if ball = b3 then lastBallMove else t)
      | some (false, b3) =>
        match checkForBall fuel W H frame b3.x1 b3.centerY b3 with
        | none => none
        | some (true, b4) => some (true, b4, t, if ball = b4 then lastBallMove else t)
        | some (false, _) =>
          match gridScanY fuel W H frame ball.width ball.height zone.x0 zone.x1 zone.y1
              zone.y0 ball with
          | none => none
          | some (some bFound, _) => some (true, bFound, t, t)
          | some (none, _) => some (false, ball, lastBall, lastBallMove)

/-- Game::addFieldSafetyMargin — expand the field once per pixel of ball
width. -/
def addFieldSafetyMargin (W H : Int) (ballW : Int) (field : Rect) : Rect :=
  expandTimes W H ballW.toNat field

/-- Game::expandField — search the whole screen for the ball; with no
ball and no field yet, request the diagnostic dump and report failure;
with no ball but an existing field, keep waiting; otherwise initialize
the field to the ball box or union the ball into it. -/
def expandField (fuel : Nat) (W H : Int) (frame : Int → Int → Pixel) (t : Int)
    (s : GameState) : Option (Bool × GameState × List GameAction) :=
  match findBall fuel W H frame ⟨0, 0, W, H⟩ t s.ball s.lastBall s.lastBallMove with
  | none => none
  | some (false, b, lb, lbm) =>
    let s1 := { s with ball := b, lastBall := lb, lastBallMove := lbm }
    if s1.field.x1 = (0 : Int) then some (false, s1, [GameAction.savePng])
    else some (true, s1, [])
  | some (true, b, lb, lbm) =>
    let s1 := { s with ball := b, lastBall := lb, lastBallMove := lbm }
    if s1.field.x1 = (0 : Int) then some (true, { s1 with field := s1.ball }, [])
    else some (true, { s1 with field := s1.field.add s1.ball }, [])

/-- Game::step — one frame tick: bootstrap (field calibration) while
haveField is false, otherwise track the ball inside the field, test
surroundedness on the expanded ball box, debounce fire, and apply the
2-second timeouts; always ends by incrementing the frame counter and
returning whether to keep playing, together with the control actions
issued during the tick. -/
def step (fuel : Nat) (W H : Int) (frame : Int → Int → Pixel) (t : Int)
    (s : GameState) : Option (GameState × Bool × List GameAction) :=
  if haveField s then
    match findBall fuel W H frame s.field t s.ball s.lastBall s.lastBallMove with
    | none => none
    | some (true, b, lb, lbm) =>
      let s1 := { s with ball := b, lastBall := lb, lastBallMove := lbm }
      if isBallSurrounded W H frame (expand W H s1.ball) then
        if s1.hasFired then
          some ({ s1 with frameCount := s1.frameCount + 1 },
            decide (t - s1.lastBallMove < 2), [])
        else
          let fr := fire s1
          some ({ fr.2 with hasFired := fr.1, frameCount := fr.2.frameCount + 1 },
            decide (t - fr.2.lastBallMove < 2), if fr.1 then [GameAction.fire] else [])
      else
        some ({ s1 with hasFired := false, frameCount := s1.frameCount + 1 },
          decide (t - s1.lastBallMove < 2), [])
    | some (false, b, lb, lbm) =>
      let s1 := { s with ball := b, lastBall := lb, lastBallMove := lbm }
      some ({ s1 with frameCount := s1.frameCount + 1 }, decide (t - s1.lastBall < 2), [])
  else
    match expandField fuel W H frame t s with
    | none => none
    | some (keep, s1, acts) =>
      if keep then
        if s.field = s1.field ∧ s1.field = s1.ball then
          some ({ s1 with field := expand W H s1.field, frameCount := s1.frameCount + 1 },
            true, acts ++ [GameAction.focus s1.ball.centerX s1.ball.centerY, GameAction.fire])
        else if haveField s1 then
          let f2 := addFieldSafetyMargin W H s1.ball.width s1.field
          some ({ s1 with field := f2, frameCount := s1.frameCount + 1 },
            true, acts ++ [GameAction.move f2.x1 f2.y1])
        else
          some ({ s1 with frameCount := s1.frameCount + 1 }, true, acts)
      else
        some ({ s1 with frameCount := s1.frameCount + 1 }, false, acts)

/-- Claim C2 counterexample: for a freshly constructed Game with
deadzoneFrames = 3, invoking the fire policy on frames 0,1,2,3,4,5
dispatches only on frame 3 (frame 0 is ignored because lastFire is
initialized to 0, so frameCount - lastFire = 0 < 3), and the ignored
counter observable at that dispatch is 3, not 2. -/
theorem spec_c2_cex :
    (fireSeq [0, 1, 2, 3, 4, 5] (initGame 3 0)).1 =
      [(false, 0), (false, 1), (false, 2), (true, 3), (false, 0), (false, 1)] ∧
    (fireSeq [0, 1, 2, 3, 4, 5] (initGame 3 0)).1.map Prod.fst ≠
      [true, false, false, true, false, false] := by
  decide

/-- Claim C2 (amended): a fire attempt dispatches iff at least
deadzoneFrames frames have elapsed since the last dispatch, where
construction counts as a dispatch at frame 0 (lastFire starts at 0);
each dispatch records the firing frame index and resets the ignored
counter, and each ignored attempt increments it.  Consequently, from a
fresh Game with deadzoneFrames = 3, attempts on frames 0,1,2,3,4,5
dispatch only on frame 3 — frames 0,1,2,4,5 are ignored — with the
ignored counter observable as 3 at that dispatch and 0 afterwards. -/
theorem spec_c2 :
    (∀ s : GameState,
      (fire s).1 = decide (s.deadzoneFrames ≤ s.frameCount - s.lastFire) ∧
      (fire s).2.lastFire =
        (if s.deadzoneFrames ≤ s.frameCount - s.lastFire then s.frameCount else s.lastFire) ∧
      (fire s).2.ignoredCount =
        (if s.deadzoneFrames ≤ s.frameCount - s.lastFire then 0 else s.ignoredCount + 1)) ∧
    (fireSeq [0, 1, 2, 3, 4, 5] (initGame 3 0)).1 =
      [(false, 0), (false, 1), (false, 2), (true, 3), (false, 0), (false, 1)] := by
  constructor
  · intro s
    unfold fire
    by_cases h : s.deadzoneFrames ≤ s.frameCount - s.lastFire <;> simp [h]
  · decide

lemma findBall_false_eq (fuel : Nat) (W H : Int) (frame : Int → Int → Pixel) (zone : Rect)
    (t : Int) (ball : Rect) (lb0 lbm0 : Int) (b : Rect) (lb lbm : Int)
    (h : findBall fuel W H frame zone t ball lb0 lbm0 = some (false, b, lb, lbm)) :
    b = ball ∧ lb = lb0 ∧ lbm = lbm0 := by
  unfold findBall at h
  repeat' split at h
  all_goals simp_all

/-- Claim C10: whenever findBall reports the ball not found (all four
edge-midpoint re-acquisitions and the grid scan fail), the tracked ball
rectangle and the last-seen and last-moved timestamps it returns are
exactly the values passed in: only a successful detection mutates
them. -/
theorem spec_c10 (fuel : Nat) (W H : Int) (frame : Int → Int → Pixel) (zone : Rect)
    (t : Int) (ball : Rect) (lb0 lbm0 : Int) (b : Rect) (lb lbm : Int)
    (h : findBall fuel W H frame zone t ball lb0 lbm0 = some (false, b, lb, lbm)) :
    b = ball ∧ lb = lb0 ∧ lbm = lbm0 :=
  findBall_false_eq fuel W H frame zone t ball lb0 lbm0 b lb lbm h

/-- A frame every pixel of which is the field colour (in particular no
pixel matches the ball colour). -/
def framePlain : Int → Int → Pixel := fun _ _ => fieldColor

/-- Claim C10 witness: the theorem applied to a concrete failing search
(6×6 zone, all-field-colour frame, empty last ball box, timestamps 1
and 2). -/
theorem spec_c10_witness :
    (⟨0, 0, 0, 0⟩ : Rect) = ⟨0, 0, 0, 0⟩ ∧ (1 : Int) = 1 ∧ (2 : Int) = 2 :=
  spec_c10 3 6 6 framePlain ⟨0, 0, 6, 6⟩ 5 ⟨0, 0, 0, 0⟩ 1 2 ⟨0, 0, 0, 0⟩ 1 2 (by decide)

/-- Claim C5 (amended): during bootstrap (haveField false), when the
whole-screen ball search fails: with no field ever captured (x1 still
the 0 sentinel) the step requests the diagnostic dump and returns false;
with an existing field the step returns true, and the game state is
unchanged except for the frame counter unless the field equals the ball
rectangle, in which case the idle-screen transition still runs — a
focus-at-ball and an activate signal are issued and the field is
expanded by one pixel ring. -/
theorem spec_c5 (fuel : Nat) (W H : Int) (frame : Int → Int → Pixel) (t : Int)
    (s : GameState) (b : Rect) (lb lbm : Int)
    (hF : haveField s = false)
    (hfb : findBall fuel W H frame ⟨0, 0, W, H⟩ t s.ball s.lastBall s.lastBallMove =
      some (false, b, lb, lbm)) :
    (s.field.x1 = 0 → step fuel W H frame t s =
      some ({ s with frameCount := s.frameCount + 1 }, false, [GameAction.savePng])) ∧
    (¬ s.field.x1 = 0 → ¬ s.field = s.ball → step fuel W H frame t s =
      some ({ s with frameCount := s.frameCount + 1 }, true, [])) ∧
    (¬ s.field.x1 = 0 → s.field = s.ball → step fuel W H frame t s =
      some ({ s with field := expand W H s.field, frameCount := s.frameCount + 1 }, true,
        [GameAction.focus s.ball.centerX s.ball.centerY, GameAction.fire])) := by
  obtain ⟨hb, hlb, hlbm⟩ := findBall_false_eq fuel W H frame ⟨0, 0, W, H⟩ t s.ball
    s.lastBall s.lastBallMove b lb lbm hfb
  subst hb
  subst hlb
  subst hlbm
  obtain ⟨ball, field, fc, lf, lb0, lbm0, dz, ig, hfd⟩ := s
  simp only at hfb hF
  unfold step expandField
  rw [hF, hfb]
  simp only [Bool.false_eq_true, if_false]
  refine ⟨?_, ?_, ?_⟩
  · intro h1
    rw [if_pos h1]
    simp
  · intro h1 h2
    rw [if_neg h1]
    dsimp only
    rw [if_pos rfl, if_neg (fun hc => h2 hc.2), if_neg (by simp [hF])]
  · intro h1 h2
    rw [if_neg h1]
    dsimp only
    rw [if_pos rfl, if_pos ⟨rfl, h2⟩]
    simp

/-- Bootstrap game state whose field equals the ball rectangle (the
state left by a first sighting), for the claim C5 counterexample. -/
def sC5 : GameState :=
  { ball := ⟨5, 5, 10, 10⟩, field := ⟨5, 5, 10, 10⟩, frameCount := 7, lastFire := 0,
    lastBall := 9, lastBallMove := 9, deadzoneFrames := 1, ignoredCount := 0,
    hasFired := false }

/-- Claim C5 counterexample: a bootstrap step that finds no ball while a
prior field exists (field.x1 = 10 ≠ 0) returns true but does NOT leave
the state unchanged apart from the frame counter: because the field
equals the ball box, the idle-screen transition fires (focus + activate)
and expands the field from (5,5,10,10) to (4,4,11,11). -/
theorem spec_c5_cex :
    step 3 20 20 framePlain 10 sC5 =
      some ({ sC5 with field := ⟨4, 4, 11, 11⟩, frameCount := 8 }, true,
        [GameAction.focus 7 7, GameAction.fire]) ∧
    ({ sC5 with field := ⟨4, 4, 11, 11⟩, frameCount := 8 } : GameState).field ≠ sC5.field := by
  decide

/-- Bootstrap game state with an existing field different from the ball
box, for the claim C5 witness. -/
def sW5 : GameState :=
  { ball := ⟨1, 1, 3, 3⟩, field := ⟨0, 0, 5, 5⟩, frameCount := 7, lastFire := 0,
    lastBall := 9, lastBallMove := 9, deadzoneFrames := 1, ignoredCount := 0,
    hasFired := false }

/-- Claim C5 witness: the amended theorem applied to a concrete
bootstrap state (all-field-colour 12×12 frame, so the ball search
fails). -/
theorem spec_c5_witness :
    (sW5.field.x1 = 0 → step 3 12 12 framePlain 10 sW5 =
      some ({ sW5 with frameCount := sW5.frameCount + 1 }, false, [GameAction.savePng])) ∧
    (¬ sW5.field.x1 = 0 → ¬ sW5.field = sW5.ball → step 3 12 12 framePlain 10 sW5 =
      some ({ sW5 with frameCount := sW5.frameCount + 1 }, true, [])) ∧
    (¬ sW5.field.x1 = 0 → sW5.field = sW5.ball → step 3 12 12 framePlain 10 sW5 =
      some ({ sW5 with field := expand 12 12 sW5.field, frameCount := sW5.frameCount + 1 },
        true, [GameAction.focus sW5.ball.centerX sW5.ball.centerY, GameAction.fire])) :=
  spec_c5 3 12 12 framePlain 10 sW5 ⟨1, 1, 3, 3⟩ 9 9 (by decide) (by decide)

/-- Claim C6: in the ACTIVE state (haveField true), when findBall does
not find the ball this frame, step leaves the state unchanged apart from
the frame counter, issues no actions, and returns true iff the elapsed
wall-clock time since the ball was last seen is under 2 seconds — so
once the ball stops being found, step first returns false exactly on the
first call at which 2 seconds have elapsed, never before. -/
theorem spec_c6 (fuel : Nat) (W H : Int) (frame : Int → Int → Pixel) (t : Int)
    (s : GameState) (b : Rect) (lb lbm : Int)
    (hF : haveField s = true)
    (hfb : findBall fuel W H frame s.field t s.ball s.lastBall s.lastBallMove =
      some (false, b, lb, lbm)) :
    step fuel W H frame t s =
      some ({ s with frameCount := s.frameCount + 1 }, decide (t - s.lastBall < 2), []) := by
  obtain ⟨hb, hlb, hlbm⟩ := findBall_false_eq fuel W H frame s.field t s.ball
    s.lastBall s.lastBallMove b lb lbm hfb
  subst hb
  subst hlb
  subst hlbm
  obtain ⟨ball, field, fc, lf, lb0, lbm0, dz, ig, hfd⟩ := s
  simp only at hfb hF
  unfold step
  rw [hF, if_pos rfl, hfb]

/-- ACTIVE-state game state (field large and near-square) for the claim
C6 witness. -/
def sC6 : GameState :=
  { ball := ⟨0, 0, 5, 5⟩, field := ⟨0, 0, 51, 51⟩, frameCount := 3, lastFire := 0,
    lastBall := 99, lastBallMove := 99, deadzoneFrames := 1, ignoredCount := 0,
    hasFired := false }

/-- Claim C6 witness: the theorem applied to a concrete ACTIVE state
with an all-field-colour frame (ball not found) at clock 100, one second
after the last sighting — the step continues. -/
theorem spec_c6_witness :
    step 3 60 60 framePlain 100 sC6 =
      some ({ sC6 with frameCount := sC6.frameCount + 1 },
        decide ((100 : Int) - sC6.lastBall < 2), []) :=
  spec_c6 3 60 60 framePlain 100 sC6 ⟨0, 0, 5, 5⟩ 99 99 (by decide) (by decide)
